import Mathlib

/-!
Verification of the boltlinux `distro-tools` package tooling.

This file gives a shallow embedding, in Lean 4, of the parts of the
repository that the checked properties are about:

* `BaseXpkg.CHAR_VALUES` and `BaseXpkg.compare_versions`
  (package/lib/boltlinux/package/boltpack/xpkg.py),
* the version regular expressions of `compare_versions`,
  `DebianPackageVersion.__init__`
  (package/lib/boltlinux/package/boltpack/debianpackagemetadata.py)
  and `BinaryPackage.version_tuple`
  (package/lib/boltlinux/package/boltpack/binarypackage.py),
* `DebianPackage.pkg_filename`, `DebianPackage.assemble_parts` and
  `DebianPackage.write_data_part`
  (package/lib/boltlinux/package/boltpack/debianpackage.py),
* the `tools`-architecture filtering step of
  `BinaryPackage.generate_file_list`,
* `SourcePackage._update_env`
  (package/lib/boltlinux/package/boltpack/sourcepackage.py),
* `FilterParser` (package/lib/boltlinux/package/boltpack/filterparser.py).

Python exceptions are modelled by an explicit error type and `Except`.
Python character classes (`\d`, `\D`, `\s`) are modelled over their ASCII
content, which covers every input the properties quantify over.
-/

namespace DistroTools

/-- The Python exceptions that the embedded code can raise.  `fuelExhausted`
is an artifact of the embedding of loops whose termination measure is not
structural; every function below is called with provably sufficient fuel on
the inputs considered. -/
inductive PyErr where
  | keyError : PyErr
  | valueError : PyErr
  | typeError : PyErr
  | attributeError : PyErr
  | assertionError : PyErr
  | recursionLimit : PyErr
  | filterSynErr : Nat → PyErr
  | unknownToken : Nat → PyErr
  | fuelExhausted : PyErr
  deriving DecidableEq, Repr

deriving instance DecidableEq for Except

/-! ## Version algebra: `BaseXpkg` (xpkg.py) -/

/-- `BaseXpkg.CHAR_VALUES`: the dict maps `~ ↦ 0`, `" " ↦ 1`, `- ↦ 2`,
`+ ↦ 3`, `. ↦ 4` and every ASCII letter to its ASCII code (65..90 and
97..122).  Any other character is absent from the dict (lookup raises
`KeyError`), hence the `Option` result. -/
def CHAR_VALUES (c : Char) : Option Nat :=
  if c = '~' then some 0
  else if c = ' ' then some 1
  else if c = '-' then some 2
  else if c = '+' then some 3
  else if c = '.' then some 4
  else if ('A' ≤ c ∧ c ≤ 'Z') ∨ ('a' ≤ c ∧ c ≤ 'z') then some c.toNat
  else none

/-- Character class `[-+:~.a-zA-Z0-9]` (upstream-version part of the regex
in `compare_versions` and `DebianPackageVersion.__init__`). -/
def xpkgVersionChar (c : Char) : Bool :=
  c = '-' || c = '+' || c = ':' || c = '~' || c = '.' ||
    ('a' ≤ c && c ≤ 'z') || ('A' ≤ c && c ≤ 'Z') || ('0' ≤ c && c ≤ '9')

/-- Character class `[^-]` (revision part of the regex in
`compare_versions` and `DebianPackageVersion.__init__`). -/
def xpkgRevChar (c : Char) : Bool :=
  c ≠ '-'

/-- Character class `[-.+~a-zA-Z0-9]` (upstream-version part of the regex
in `BinaryPackage.version_tuple`; unlike the xpkg one it has no `:`). -/
def vtVersionChar (c : Char) : Bool :=
  c = '-' || c = '.' || c = '+' || c = '~' ||
    ('a' ≤ c && c ≤ 'z') || ('A' ≤ c && c ≤ 'Z') || ('0' ≤ c && c ≤ '9')

/-- Character class `[.~+a-zA-Z0-9]` (revision part of the regex in
`BinaryPackage.version_tuple`). -/
def vtRevChar (c : Char) : Bool :=
  c = '.' || c = '~' || c = '+' ||
    ('a' ≤ c && c ≤ 'z') || ('A' ≤ c && c ≤ 'Z') || ('0' ≤ c && c ≤ '9')

/-- Character class `[.~+A-Za-z0-9]`: the revision part of the regex **as
written in the spec** (section 4.1).  The code's regexes use `[^-]` here
(xpkg) resp. `[.~+a-zA-Z0-9]` (version_tuple); this definition follows the
spec's words and exists only to compare spec and code. -/
def specRevChar (c : Char) : Bool :=
  c = '.' || c = '~' || c = '+' ||
    ('A' ≤ c && c ≤ 'Z') || ('a' ≤ c && c ≤ 'z') || ('0' ≤ c && c ≤ '9')

/-- The trailing alternative `(?:-R+)?` tried at a candidate split of the
version part: it matches when the remainder is `-` followed by a nonempty
run of `R`-characters reaching the end of the string (the greedy `R+`
followed by `$` matches exactly then). -/
def revMatch (R : Char → Bool) : List Char → Option (List Char)
  | '-' :: c :: cs => if (c :: cs).all R then some (c :: cs) else none
  | _ => none

/-- Matches `C+?(?:-R+)?$` against `acc ++ rest` where `acc` (all of class
`C`) has already been consumed by the non-greedy `C+?`.  Mirrors Python's
backtracking: the shortest version prefix is tried first, and at each
candidate split the `(?:-R+)?` alternative is tried before bare `$`. -/
def verSearch (C R : Char → Bool) :
    List Char → List Char → Option (List Char × Option (List Char))
  | acc, [] =>
    if acc = [] then none
    else
      match revMatch R [] with
      | some r => some (acc, some r)
      | none => some (acc, none)
  | acc, c :: cs =>
    if acc = [] then
      if C c then verSearch C R (acc ++ [c]) cs else none
    else
      match revMatch R (c :: cs) with
      | some r => some (acc, some r)
      | none => if C c then verSearch C R (acc ++ [c]) cs else none

/-- Anchored match of `^(?:(\d+):)?C+?(?:-R+)?$`.  The optional epoch
group is greedy: it participates exactly when the string starts with at
least one digit followed by `:`; if the remainder then fails to match, the
engine backtracks to the epoch-absent alternative.  Returns
`(epoch?, version, revision?)`. -/
def regexVersionMatch (C R : Char → Bool) (s : List Char) :
    Option (Option (List Char) × List Char × Option (List Char)) :=
  let ds := s.takeWhile (·.isDigit)
  let rest := s.drop ds.length
  if ds ≠ [] ∧ rest.head? = some ':' then
    match verSearch C R [] (rest.drop 1) with
    | some (v, r) => some (some ds, v, r)
    | none =>
      match verSearch C R [] s with
      | some (v, r) => some (none, v, r)
      | none => none
  else
    match verSearch C R [] s with
    | some (v, r) => some (none, v, r)
    | none => none

/-- The regex of `compare_versions` and `DebianPackageVersion.__init__`:
`^(?:(\d+):)?([-+:~.a-zA-Z0-9]+?)(?:-([^-]+))?$`. -/
def xpkgMatch (s : List Char) :
    Option (Option (List Char) × List Char × Option (List Char)) :=
  regexVersionMatch xpkgVersionChar xpkgRevChar s

/-- The regex of `BinaryPackage.version_tuple`:
`^(?:(\d+):)?([-.+~a-zA-Z0-9]+?)(?:-([.~+a-zA-Z0-9]+)){0,1}$`. -/
def versionTupleMatch (s : List Char) :
    Option (Option (List Char) × List Char × Option (List Char)) :=
  regexVersionMatch vtVersionChar vtRevChar s

/-- The version regex **as written in the spec** (section 4.1):
`^(?:(\d+):)?[-+:~.A-Za-z0-9]+?(?:-[.~+A-Za-z0-9]+)?$`.  Differs from the
code's `xpkgMatch` only in the revision character class. -/
def specVersionMatch (s : List Char) :
    Option (Option (List Char) × List Char × Option (List Char)) :=
  regexVersionMatch xpkgVersionChar specRevChar s

/-- `m.groups(default="") if m else ("", "", "")` at the top of
`compare_versions`: a non-matching argument degrades to empty epoch,
version and revision instead of raising. -/
def compareParts (s : List Char) : List Char × List Char × List Char :=
  match xpkgMatch s with
  | some (e, v, r) => (e.getD [], v, r.getD [])
  | none => ([], [], [])

/-- `int()` of a (possibly empty) decimal digit string;
`int(epoch_a) if epoch_a else 0`. -/
def digitsToNat (ds : List Char) : Nat :=
  ds.foldl (fun n c => n * 10 + (c.toNat - 48)) 0

/-- The space padding of the two non-digit runs: the shorter run is
extended with ASCII spaces to the length of the longer one
(`p_b += " " * (len_a - len_b)` resp. `p_a += " " * (len_b - len_a)`). -/
def padRuns (pa pb : List Char) : List Char × List Char :=
  if pa.length ≠ pb.length then
    if pa.length > pb.length then
      (pa, pb ++ List.replicate (pa.length - pb.length) ' ')
    else
      (pa ++ List.replicate (pb.length - pa.length) ' ', pb)
  else (pa, pb)

/-- The character loop `for c_a, c_b in zip(p_a, p_b)`: looks both
characters up in `CHAR_VALUES` (a missing key raises `KeyError`, left
operand first) and returns `+1`/`-1` at the first difference; `0` means
the runs compared equal through the zipped length. -/
def cmpChars : List Char → List Char → Except PyErr Int
  | ca :: ta, cb :: tb =>
    match CHAR_VALUES ca with
    | none => .error .keyError
    | some x =>
      match CHAR_VALUES cb with
      | none => .error .keyError
      | some y =>
        if x > y then .ok 1
        else if x < y then .ok (-1)
        else cmpChars ta tb
  | _, _ => .ok 0

/-- Comparison of two non-digit runs: pad to equal length with spaces,
then compare character-by-character via `CHAR_VALUES`. -/
def cmpNonDigitRuns (pa pb : List Char) : Except PyErr Int :=
  let q := padRuns pa pb
  cmpChars q.1 q.2

/-- Outcome of the run-alternation loop on one `(v_a, v_b)` pair: either a
decision `±1` was returned, or the pair compared equal — in which case the
`mode` variable (`false` = nondigit, `true` = digit) carries over to the
next pair, exactly as in the source where `mode` is not reset between the
version pair and the revision pair. -/
inductive RunOut where
  | decided : Int → RunOut
  | tie : Bool → RunOut
  deriving DecidableEq, Repr

/-- The `while v_a or v_b` loop of `compare_versions` on one pair.
In nondigit mode the maximal `\D+` prefixes are removed and compared via
`cmpNonDigitRuns`.  In digit mode the maximal `\d+` prefixes are taken,
with `"0"` substituted for an empty match — note that the source then
strips `len(p_a)` characters, so a string whose head is a non-digit loses
one character that is compared as the number 0.  Fuel: each iteration
strictly decreases `2*(|v_a|+|v_b|) + (1 if nondigit mode)`, so
`2*(|v_a|+|v_b|) + 2` initial fuel never exhausts. -/
def verPairLoop : Nat → Bool → List Char → List Char → Except PyErr RunOut
  | 0, _, _, _ => .error .fuelExhausted
  | _ + 1, digitMode, [], [] => .ok (.tie digitMode)
  | fuel + 1, digitMode, va, vb =>
    if !digitMode then
      let pa := va.takeWhile (fun c => !c.isDigit)
      let pb := vb.takeWhile (fun c => !c.isDigit)
      let va' := va.drop pa.length
      let vb' := vb.drop pb.length
      match cmpNonDigitRuns pa pb with
      | .error e => .error e
      | .ok r => if r ≠ 0 then .ok (.decided r) else verPairLoop fuel true va' vb'
    else
      let pa0 := va.takeWhile (·.isDigit)
      let pb0 := vb.takeWhile (·.isDigit)
      let pa := if pa0 = [] then ['0'] else pa0
      let pb := if pb0 = [] then ['0'] else pb0
      let va' := va.drop pa.length
      let vb' := vb.drop pb.length
      let na := digitsToNat pa
      let nb := digitsToNat pb
      if na > nb then .ok (.decided 1)
      else if na < nb then .ok (.decided (-1))
      else verPairLoop fuel false va' vb'

/-- `BaseXpkg.compare_versions(a, b)`: parse both arguments with the
version regex (degrading to empty parts on mismatch), compare epochs
numerically, then run the alternating digit/nondigit loop over the
version pair and — with the mode carried over — the revision pair. -/
def compare_versions (a b : String) : Except PyErr Int :=
  let ga := compareParts a.data
  let gb := compareParts b.data
  let epochA := digitsToNat ga.1
  let epochB := digitsToNat gb.1
  if epochA > epochB then .ok 1
  else if epochA < epochB then .ok (-1)
  else
    match verPairLoop (2 * (ga.2.1.length + gb.2.1.length) + 2) false ga.2.1 gb.2.1 with
    | .error e => .error e
    | .ok (.decided r) => .ok r
    | .ok (.tie m) =>
      match verPairLoop (2 * (ga.2.2.length + gb.2.2.length) + 2) m ga.2.2 gb.2.2 with
      | .error e => .error e
      | .ok (.decided r) => .ok r
      | .ok (.tie _) => .ok 0

/-! ## `DebianPackageVersion` and `version_tuple` / `pkg_filename` -/

/-- The fields set by `DebianPackageVersion.__init__`. -/
structure DebianPackageVersionS where
  full : String
  epoch : String
  version : String
  revision : String
  deriving DecidableEq, Repr

/-- `DebianPackageVersion.__init__`: raises `ValueError` when the version
regex does not match, otherwise stores `m.groups(default="")`. -/
def debianPackageVersionInit (version : String) :
    Except PyErr DebianPackageVersionS :=
  match xpkgMatch version.data with
  | none => .error .valueError
  | some (e, v, r) =>
    .ok ⟨version, String.mk (e.getD []), String.mk v, String.mk (r.getD [])⟩

/-- `BinaryPackage.version_tuple`: `re.match(...)` then `m.group(1, 2, 3)`.
A `none` result models `m` being `None`, in which case `m.group` raises
`AttributeError`. -/
def version_tuple (version : String) :
    Option (Option String × String × Option String) :=
  (versionTupleMatch version.data).map
    (fun g => (g.1.map String.mk, String.mk g.2.1, g.2.2.map String.mk))

/-- `DebianPackage.pkg_filename`: unpacks `version_tuple` and returns
`"_".join([name + debug_suffix, version + "-" + revision,
architecture.replace("_", "-")]) + ".bolt"`.  When the match failed,
`m.group` raises `AttributeError`; when the revision group is `None`,
`version + "-" + None` raises `TypeError`. -/
def pkg_filename (name version architecture : String) (debugPkg : Bool) :
    Except PyErr String :=
  match version_tuple version with
  | none => .error .attributeError
  | some (_, _, none) => .error .typeError
  | some (_, v, some r) =>
    .ok (String.intercalate "_"
      [name ++ (if debugPkg then "-dbg" else ""),
       v ++ "-" ++ r,
       architecture.replace "_" "-"] ++ ".bolt")

/-! ## `DebianPackage.write_data_part` / `assemble_parts` (debianpackage.py) -/

/-- The slice of `FileStats` that `write_data_part`'s size accounting
reads: `is_file`, `is_symbolic_link` and `st_size`. -/
structure FileStatsE where
  isFile : Bool
  isSymbolicLink : Bool
  stSize : Nat
  deriving DecidableEq, Repr

/-- The `installed_size` accumulation of `write_data_part` ("imitate
behavior of dpkg-gencontrol"): regular files and symbolic links
contribute `st_size`, every other entry contributes 1024 bytes. -/
def writeDataPartSize (contents : List FileStatsE) : Nat :=
  contents.foldl
    (fun acc st =>
      if st.isFile || st.isSymbolicLink then acc + st.stSize else acc + 1024)
    0

/-- Python `int()` applied to an exact rational: truncation toward zero.
The float expressions it is applied to below are exact in IEEE double for
all values below `2^52`, so the rational model is faithful there. -/
def pyInt (q : ℚ) : Int :=
  if 0 ≤ q then ⌊q⌋ else ⌈q⌉

/-- `assemble_parts`: `installed_size = int(installed_size / 1024 + 0.5)`
("According to Debian Policy Manual Installed-Size is in KB"). -/
def installedSizeKiB (raw : Nat) : Int :=
  pyInt ((raw : ℚ) / 1024 + 1 / 2)

/-- `stat.S_IFREG`. -/
def S_IFREG : Nat := 0o100000

/-- The libarchive formats used by the writer (`FORMAT_AR_SVR4 = 3`,
`FORMAT_TAR_USTAR` for the inner tarballs). -/
inductive ArchiveFormat where
  | arSVR4 : ArchiveFormat
  | tarUstar : ArchiveFormat
  deriving DecidableEq, Repr

/-- The fields `assemble_parts` sets on each ar `ArchiveEntry` before
`archive.write_entry`. -/
structure ArMember where
  pathname : String
  mode : Nat
  uid : Nat
  gid : Nat
  uname : String
  gname : String
  deriving DecidableEq, Repr

/-- The outcome of `assemble_parts` that the properties observe: the
container format, the `Installed-Size` control field, and the ar members
in write order. -/
structure AssembledPackage where
  format : ArchiveFormat
  installedSizeField : Int
  members : List ArMember
  deriving DecidableEq, Repr

/-- `DebianPackage.assemble_parts`: writes `data.tar.gz` (accumulating
`installed_size`), stores `int(installed_size / 1024 + 0.5)` in
`meta_data["Installed-Size"]`, then writes an `ar` (SVR4) archive with
`ArchiveFileWriter(pkg_filename, libarchive.FORMAT_AR_SVR4, ...)`,
iterating over `["debian-binary", "control.tar.gz", "data.tar.gz"]` and
setting `mode = stat.S_IFREG | 0o644`, `uid = 0`, `gid = 0`,
`uname = "root"`, `gname = "root"` on every entry. -/
def assemble_parts (pkgContents : List FileStatsE) : AssembledPackage :=
  let rawSize := writeDataPartSize pkgContents
  let members :=
    ["debian-binary", "control.tar.gz", "data.tar.gz"].foldl
      (fun archive entryName =>
        archive ++ [{ pathname := entryName
                      mode := S_IFREG ||| 0o644
                      uid := 0
                      gid := 0
                      uname := "root"
                      gname := "root" : ArMember }])
      []
  { format := .arSVR4
    installedSizeField := installedSizeKiB rawSize
    members := members }

/-! ## `BinaryPackage.generate_file_list`, `tools` filtering -/

/-- The inline `filter_etc_var` of `generate_file_list`:
`False if item[0][0:4] in ["/etc", "/var"] else True`.  Note the test is
on the first four *characters* of the path, not on path components. -/
def filterEtcVar {α : Type} (item : String × α) : Bool :=
  if item.1.data.take 4 = "/etc".data ∨ item.1.data.take 4 = "/var".data then
    false
  else true

/-- The `architecture == "tools"` branch of `generate_file_list`:
`OrderedDict(sorted(filter(filter_etc_var, set(contents.items())),
key=lambda x: x[0]))`. -/
def generateFileListTools {α : Type} [DecidableEq α]
    (contents : List (String × α)) : List (String × α) :=
  (contents.dedup.filter filterEtcVar).mergeSort (fun x y => x.1 ≤ y.1)

/-! ## `SourcePackage._update_env` (sourcepackage.py) -/

/-- `str(int(Platform.num_cpus() * 1.5))` — `1.5` is exactly `3/2` in
IEEE double and `n * 1.5` is exact for every machine cpu count. -/
def numParallelJobs (numCpus : Nat) : Int :=
  pyInt ((numCpus : ℚ) * (3 / 2))

/-- The keys the `os.environ` copy loop skips. -/
def updateEnvSkipKeys : List String :=
  ["BOLT_WORK_DIR", "BOLT_SOURCE_DIR", "BOLT_BUILD_DIR", "BOLT_INSTALL_DIR"]

/-- The `PATH` fallback of `_update_env`. -/
def defaultPath : String := "/bin:/sbin:/usr/bin:/usr/sbin:/usr/local/bin"

/-- `SourcePackage._update_env(env)`: updates `env` with the build flags,
sets `BOLT_PARALLEL_JOBS`, copies from `os.environ` every key that starts
with `BOLT_` (except the four skip keys) or is `PATH`/`USER`/`USERNAME`,
and defaults `PATH` when still unset.  Environments are modelled as
partial maps `String → Option String`; later updates win. -/
def update_env (env buildFlags osEnviron : String → Option String)
    (numCpus : Nat) : String → Option String :=
  let e1 := fun k => match buildFlags k with
    | some v => some v
    | none => env k
  let e2 := fun k =>
    if k = "BOLT_PARALLEL_JOBS" then some (toString (numParallelJobs numCpus))
    else e1 k
  let e3 := fun k => match osEnviron k with
    | some v =>
      if k ∈ updateEnvSkipKeys then e2 k
      else if k.startsWith "BOLT_" ∨ k ∈ ["PATH", "USER", "USERNAME"] then some v
      else e2 k
    | none => e2 k
  match e3 "PATH" with
  | none => fun k => if k = "PATH" then some defaultPath else e3 k
  | some _ => e3

/-! ## `FilterParser` (filterparser.py) -/

/-- Token types after `tokenize`'s reclassification of the words `and`
and `or` (`open`, `close`, `word`, `not` in the source). -/
inductive TokTy where
  | lparen | rparen | word | bang | andOp | orOp
  deriving DecidableEq, Repr

/-- One token: `(token_type, token, token_start)` with the 1-based
position `match.start() + 1`. -/
structure Tok where
  ty : TokTy
  text : String
  pos : Nat
  deriving DecidableEq, Repr

/-- `[a-z]`, the first character of a `word` token. -/
def isWordStart (c : Char) : Bool :=
  'a' ≤ c && c ≤ 'z'

/-- `[-0-9a-z_]`, the continuation characters of a `word` token. -/
def isWordChar (c : Char) : Bool :=
  c = '-' || c = '_' || ('0' ≤ c && c ≤ '9') || ('a' ≤ c && c ≤ 'z')

/-- Python `\s` on ASCII text: space, tab, newline, carriage return,
vertical tab, form feed. -/
def isPySpace (c : Char) : Bool :=
  c = ' ' || c = '\t' || c = '\n' || c = '\r' || c = '\x0b' || c = '\x0c'

/-- `FilterParser.tokenize`: scan with the alternation
`open | close | word | not | whitespace | unknown` (first alternative
wins, `word` and `whitespace` munch maximally), skipping whitespace,
reclassifying the words `and`/`or`, and raising `SyntaxError` on any
other character (the `unknown` branch).  Fuel: each step consumes at
least one character, so `cs.length + 1` initial fuel never exhausts. -/
def tokenizeFrom : Nat → Nat → List Char → Except PyErr (List Tok)
  | 0, _, _ => .error .fuelExhausted
  | _ + 1, _, [] => .ok []
  | fuel + 1, p, c :: cs =>
    if c = '(' then
      (tokenizeFrom fuel (p + 1) cs).map (⟨.lparen, "(", p⟩ :: ·)
    else if c = ')' then
      (tokenizeFrom fuel (p + 1) cs).map (⟨.rparen, ")", p⟩ :: ·)
    else if isWordStart c then
      let w := c :: cs.takeWhile isWordChar
      let text := String.mk w
      let ty : TokTy :=
        if text = "and" then .andOp else if text = "or" then .orOp else .word
      (tokenizeFrom fuel (p + w.length) (cs.drop (w.length - 1))).map
        (⟨ty, text, p⟩ :: ·)
    else if c = '!' then
      (tokenizeFrom fuel (p + 1) cs).map (⟨.bang, "!", p⟩ :: ·)
    else if isPySpace c then
      let w := c :: cs.takeWhile isPySpace
      tokenizeFrom fuel (p + w.length) (cs.drop (w.length - 1))
    else .error (.unknownToken p)

/-- The symbol table: `{"true": True, "false": False}` then
`symbols[term] = True` for every `term in true_terms`; looked up with
`self.symbols.get(tok, False)`. -/
def symbolsGet (trueTerms : List String) (tok : String) : Bool :=
  if tok ∈ trueTerms then true
  else if tok = "true" then true
  else if tok = "false" then false
  else false

/-- The `while tokens` loop of `FilterParser._p_expr`.  `result` is the
running value (`None` initially), `sc` is `short_cut`, `lvl` the
recursion level; the returned list is what is left of the shared token
list when the loop exits.  Recursive `_p_expr` calls check `lvl > 64`
on entry (`FilterParser.Error`).  Fuel: every recursive call and every
loop continuation runs on a strictly shorter token list, so
`tokens.length + 1` initial fuel never exhausts. -/
def pExprLoop (trueTerms : List String) :
    Nat → List Tok → Nat → Bool → Option Bool →
    Except PyErr (Option Bool × List Tok)
  | 0, _, _, _, _ => .error .fuelExhausted
  | _ + 1, [], _, _, result => .ok (result, [])
  | fuel + 1, t :: rest, lvl, sc, result =>
    match t.ty with
    | .bang =>
      if result.isSome then .error (.filterSynErr t.pos)
      else if lvl + 1 > 64 then .error .recursionLimit
      else
        match pExprLoop trueTerms fuel rest (lvl + 1) true none with
        | .error e => .error e
        | .ok (none, _) => .error (.filterSynErr t.pos)
        | .ok (some v, rest') =>
          if sc then .ok (some (!v), rest')
          else pExprLoop trueTerms fuel rest' lvl sc (some (!v))
    | .andOp =>
      match result with
      | none => .error (.filterSynErr t.pos)
      | some a =>
        if lvl + 1 > 64 then .error .recursionLimit
        else
          match pExprLoop trueTerms fuel rest (lvl + 1) true none with
          | .error e => .error e
          | .ok (none, _) => .error (.filterSynErr t.pos)
          | .ok (some b, rest') =>
            pExprLoop trueTerms fuel rest' lvl sc (some (a && b))
    | .orOp =>
      match result with
      | none => .error (.filterSynErr t.pos)
      | some a =>
        if lvl + 1 > 64 then .error .recursionLimit
        else
          match pExprLoop trueTerms fuel rest (lvl + 1) false none with
          | .error e => .error e
          | .ok (none, _) => .error (.filterSynErr t.pos)
          | .ok (some b, rest') =>
            pExprLoop trueTerms fuel rest' lvl sc (some (a || b))
    | .word =>
      if result.isSome then .error (.filterSynErr t.pos)
      else
        let result' := some (symbolsGet trueTerms t.text)
        if sc then .ok (result', rest)
        else pExprLoop trueTerms fuel rest lvl sc result'
    | .lparen =>
      if result.isSome then .error (.filterSynErr t.pos)
      else if lvl + 1 > 64 then .error .recursionLimit
      else
        match pExprLoop trueTerms fuel rest (lvl + 1) false none with
        | .error e => .error e
        | .ok (v, rest') =>
          match rest' with
          | [] => .error (.filterSynErr t.pos)
          | u :: rest'' =>
            if u.ty = .rparen then
              if sc then .ok (v, rest'')
              else pExprLoop trueTerms fuel rest'' lvl sc v
            else .error (.filterSynErr t.pos)
    | .rparen =>
      if lvl = 0 then .error (.filterSynErr t.pos)
      else .ok (result, t :: rest)

/-- `FilterParser.parse(expr)`: tokenize, run `_p_expr` at level 0
(which asserts that every token was consumed), and map a `None` result
to `True`. -/
def filterParse (trueTerms : List String) (expr : String) :
    Except PyErr Bool :=
  match tokenizeFrom (expr.data.length + 1) 1 expr.data with
  | .error e => .error e
  | .ok tokens =>
    match pExprLoop trueTerms (tokens.length + 1) tokens 0 false none with
    | .error e => .error e
    | .ok (result, rest) =>
      if rest ≠ [] then .error .assertionError
      else
        match result with
        | none => .ok true
        | some b => .ok b

/-- A string that the tokenizer turns into a single `word` token:
nonempty, `[a-z]` first character, `[-0-9a-z_]` continuation. -/
def isWordTokenStr (w : String) : Bool :=
  match w.data with
  | [] => false
  | c :: cs => isWordStart c && cs.all isWordChar

/-! ## Helper lemmas -/

/-- `int(raw / 1024 + 0.5)` is round-half-up: `(raw + 512) / 1024` in
natural division. -/
theorem installedSizeKiB_eq (raw : ℕ) :
    installedSizeKiB raw = ((raw + 512) / 1024 : ℕ) := by
  unfold installedSizeKiB pyInt
  rw [if_pos (by positivity)]
  have h : (raw : ℚ) / 1024 + 1 / 2
      = (((raw + 512 : ℕ) : ℤ) : ℚ) / ((1024 : ℕ) : ℚ) := by
    push_cast
    ring
  rw [h, Rat.floor_intCast_div_natCast]
  push_cast [Int.ofNat_tdiv]
  norm_num

/-- `int(n * 1.5)` is truncation: `(3 * n) / 2` in natural division. -/
theorem numParallelJobs_eq (n : ℕ) :
    numParallelJobs n = ((3 * n) / 2 : ℕ) := by
  unfold numParallelJobs pyInt
  rw [if_pos (by positivity)]
  have h : (n : ℚ) * (3 / 2) = (((3 * n : ℕ) : ℤ) : ℚ) / ((2 : ℕ) : ℚ) := by
    push_cast
    ring
  rw [h, Rat.floor_intCast_div_natCast]
  push_cast [Int.ofNat_tdiv]
  norm_num

/-- The `installed_size` foldl, shifted by an arbitrary accumulator. -/
theorem writeDataPartSize_foldl (contents : List FileStatsE) (a : ℕ) :
    contents.foldl
      (fun acc st =>
        if st.isFile || st.isSymbolicLink then acc + st.stSize else acc + 1024)
      a
    = a + writeDataPartSize contents := by
  induction contents generalizing a with
  | nil => simp [writeDataPartSize]
  | cons st rest ih =>
    simp only [writeDataPartSize, List.foldl_cons] at *
    by_cases h : (st.isFile || st.isSymbolicLink) = true
    · rw [if_pos h, ih, if_pos h, ih (0 + st.stSize)]
      omega
    · rw [if_neg h, ih, if_neg h, ih (0 + 1024)]
      omega

/-- One step of the `installed_size` accumulation. -/
theorem writeDataPartSize_cons (st : FileStatsE) (rest : List FileStatsE) :
    writeDataPartSize (st :: rest)
      = (if st.isFile || st.isSymbolicLink then st.stSize else 1024)
        + writeDataPartSize rest := by
  have h0 := writeDataPartSize_foldl rest (0 + st.stSize)
  have h1 := writeDataPartSize_foldl rest (0 + 1024)
  unfold writeDataPartSize at *
  rw [List.foldl_cons]
  by_cases h : (st.isFile || st.isSymbolicLink) = true
  · rw [if_pos h, if_pos h, h0]
    omega
  · rw [if_neg h, if_neg h, h1]

/-- `write_data_part`'s accumulation equals the sum of `st_size` over
regular files and symlinks plus 1024 per other entry. -/
theorem writeDataPartSize_eq_sum (contents : List FileStatsE) :
    writeDataPartSize contents
      = ((contents.filter (fun st => st.isFile || st.isSymbolicLink)).map
          (fun st => st.stSize)).sum
        + 1024 * (contents.filter
            (fun st => !(st.isFile || st.isSymbolicLink))).length := by
  induction contents with
  | nil => rfl
  | cons st rest ih =>
    rw [writeDataPartSize_cons, ih, List.filter_cons, List.filter_cons]
    by_cases h : (st.isFile || st.isSymbolicLink) = true
    · rw [if_pos h,
        if_pos (show (fun st : FileStatsE =>
          st.isFile || st.isSymbolicLink) st = true from h),
        if_neg (show ¬ ((fun st : FileStatsE =>
          !(st.isFile || st.isSymbolicLink)) st = true) from by simp [h]),
        List.map_cons, List.sum_cons]
      omega
    · have h' : (st.isFile || st.isSymbolicLink) = false := by
        simpa using h
      rw [if_neg h,
        if_neg (show ¬ ((fun st : FileStatsE =>
          st.isFile || st.isSymbolicLink) st = true) from by simp [h']),
        if_pos (show (fun st : FileStatsE =>
          !(st.isFile || st.isSymbolicLink)) st = true from by simp [h']),
        List.length_cons]
      omega

/-! ## The claims -/

/-- C1 (amended): for every package assembled by the writer, the
`Installed-Size` field equals the byte total — the sum of `st_size` over
regular files and symlinks plus 1024 per other entry — divided by 1024
and rounded **half-up** (`int(x / 1024 + 0.5)`, i.e. `(x + 512) div
1024`), not rounded up with a ceiling. -/
theorem C1_installed_size_amended (contents : List FileStatsE) :
    (assemble_parts contents).installedSizeField
      = ((writeDataPartSize contents + 512) / 1024 : ℕ) ∧
    writeDataPartSize contents
      = ((contents.filter (fun st => st.isFile || st.isSymbolicLink)).map
          (fun st => st.stSize)).sum
        + 1024 * (contents.filter
            (fun st => !(st.isFile || st.isSymbolicLink))).length := by
  constructor
  · exact installedSizeKiB_eq (writeDataPartSize contents)
  · exact writeDataPartSize_eq_sum contents

/-- C1 counterexample: a package holding one regular file of 100 bytes.
The writer records `Installed-Size = 0`, while the claimed formula
`ceil(total / 1024)` gives 1. -/
theorem C1_installed_size_counterexample :
    (assemble_parts [⟨true, false, 100⟩]).installedSizeField = 0 ∧
    ⌈(writeDataPartSize [⟨true, false, 100⟩] : ℚ) / 1024⌉ = 1 := by
  constructor
  · show installedSizeKiB (writeDataPartSize [⟨true, false, 100⟩]) = 0
    rw [show writeDataPartSize [⟨true, false, 100⟩] = 100 from rfl]
    rw [installedSizeKiB_eq]
    norm_num
  · rw [show writeDataPartSize [⟨true, false, 100⟩] = 100 from rfl]
    rw [Int.ceil_eq_iff]
    norm_num

/-- C3: `assemble_parts` writes an ar(SVR4) container whose members are
exactly `debian-binary`, `control.tar.gz`, `data.tar.gz` in that order,
each with uid 0, gid 0, uname "root", gname "root" and permission bits
0644 (`mode = S_IFREG | 0o644`). -/
theorem C3_ar_members (contents : List FileStatsE) :
    (assemble_parts contents).format = ArchiveFormat.arSVR4 ∧
    (assemble_parts contents).members =
      [⟨"debian-binary", S_IFREG ||| 0o644, 0, 0, "root", "root"⟩,
       ⟨"control.tar.gz", S_IFREG ||| 0o644, 0, 0, "root", "root"⟩,
       ⟨"data.tar.gz", S_IFREG ||| 0o644, 0, 0, "root", "root"⟩] ∧
    (S_IFREG ||| 0o644) &&& 0o7777 = 0o644 := by
  exact ⟨rfl, rfl, by decide⟩

/-- C8 (amended): when the outer environment does not itself define
`BOLT_PARALLEL_JOBS`, the environment passed to a rules script sets
`BOLT_PARALLEL_JOBS` to `int(cpu_count * 1.5)`, which is `cpu_count * 1.5`
**truncated** (`(3 * n) div 2`), not rounded to the nearest integer. -/
theorem C8_parallel_jobs_amended (env buildFlags osEnviron : String → Option String)
    (n : ℕ) (h : osEnviron "BOLT_PARALLEL_JOBS" = none) :
    update_env env buildFlags osEnviron n "BOLT_PARALLEL_JOBS"
      = some (toString (numParallelJobs n)) ∧
    numParallelJobs n = ((3 * n) / 2 : ℕ) := by
  refine ⟨?_, numParallelJobs_eq n⟩
  simp only [update_env]
  split <;> simp [h]

/-- C8 witness: the amended claim at `cpu_count = 4` and empty maps. -/
theorem C8_parallel_jobs_witness :
    ((fun _ => (none : Option String)) "BOLT_PARALLEL_JOBS"
        = (none : Option String)) ∧
    (update_env (fun _ => none) (fun _ => none) (fun _ => none) 4
        "BOLT_PARALLEL_JOBS" = some (toString (numParallelJobs 4)) ∧
      numParallelJobs 4 = ((3 * 4) / 2 : ℕ)) :=
  ⟨rfl, C8_parallel_jobs_amended (fun _ => none) (fun _ => none)
    (fun _ => none) 4 rfl⟩

/-- C8 counterexample: at `cpu_count = 1` the code computes
`int(1 * 1.5) = 1`, while the claimed round-to-nearest gives
`round(1.5) = 2`. -/
theorem C8_parallel_jobs_counterexample :
    update_env (fun _ => none) (fun _ => none) (fun _ => none) 1
        "BOLT_PARALLEL_JOBS" = some (toString (numParallelJobs 1)) ∧
    numParallelJobs 1 = 1 ∧
    round ((1 : ℚ) * (3 / 2)) = 2 := by
  refine ⟨rfl, ?_, by norm_num [round_eq]⟩
  rw [numParallelJobs_eq]
  norm_num

/-- C10: `pkg_filename` succeeds only when the version has a revision
component: whenever `version_tuple` yields a `None` revision group,
`pkg_filename` raises (`version + "-" + None` is a `TypeError`) instead
of returning a filename. -/
theorem C10_pkg_filename_needs_revision (name version arch : String)
    (dbg : Bool) (e : Option String) (v : String)
    (h : version_tuple version = some (e, v, none)) :
    pkg_filename name version arch dbg = .error .typeError := by
  simp [pkg_filename, h]

/-- C10 witness: version `1.0` parses with no revision group and
`pkg_filename` errors on it. -/
theorem C10_pkg_filename_witness :
    version_tuple "1.0" = some (none, "1.0", none) ∧
    pkg_filename "hello" "1.0" "x86-64" false = .error .typeError :=
  ⟨by decide,
   C10_pkg_filename_needs_revision "hello" "1.0" "x86-64" false none "1.0"
     (by decide)⟩

/-- `Char` order is definitionally the order of the scalar values. -/
theorem charLe_toNat {a b : Char} (h : a ≤ b) : a.toNat ≤ b.toNat := h

/-- `CHAR_VALUES` maps every ASCII letter to its ASCII code, which is
greater than 64. -/
theorem CHAR_VALUES_letter (c : Char)
    (h : ('A' ≤ c ∧ c ≤ 'Z') ∨ ('a' ≤ c ∧ c ≤ 'z')) :
    CHAR_VALUES c = some c.toNat ∧ 64 < c.toNat := by
  have hb : 65 ≤ c.toNat := by
    rcases h with ⟨hh, _⟩ | ⟨hh, _⟩
    · exact charLe_toNat hh
    · have : 97 ≤ c.toNat := charLe_toNat hh
      omega
  constructor
  · have h1 : c ≠ '~' := by
      rintro rfl
      rcases h with ⟨_, hh⟩ | ⟨_, hh⟩ <;> exact absurd hh (by decide)
    have h2 : c ≠ ' ' := by
      rintro rfl
      rcases h with ⟨hh, _⟩ | ⟨hh, _⟩ <;> exact absurd hh (by decide)
    have h3 : c ≠ '-' := by
      rintro rfl
      rcases h with ⟨hh, _⟩ | ⟨hh, _⟩ <;> exact absurd hh (by decide)
    have h4 : c ≠ '+' := by
      rintro rfl
      rcases h with ⟨hh, _⟩ | ⟨hh, _⟩ <;> exact absurd hh (by decide)
    have h5 : c ≠ '.' := by
      rintro rfl
      rcases h with ⟨hh, _⟩ | ⟨hh, _⟩ <;> exact absurd hh (by decide)
    simp [CHAR_VALUES, h1, h2, h3, h4, h5, h]
  · omega

/-- The character loop ignores a common prefix whose characters are all
in the `CHAR_VALUES` dict. -/
theorem cmpChars_append (p X Y : List Char)
    (hp : ∀ e ∈ p, (CHAR_VALUES e).isSome) :
    cmpChars (p ++ X) (p ++ Y) = cmpChars X Y := by
  induction p with
  | nil => rfl
  | cons e p ih =>
    obtain ⟨v, hv⟩ := Option.isSome_iff_exists.mp
      (hp e (List.mem_cons_self e p))
    simp only [List.cons_append, cmpChars, hv]
    rw [if_neg (lt_irrefl v), if_neg (lt_irrefl v)]
    exact ih (fun x hx => hp x (List.mem_cons_of_mem e hx))

/-- When two non-digit runs agree on a prefix of dict characters and then
differ, with a character of value `> 4` against `-`, `+` or `.`, the run
comparison decides `+1` for the high-valued side. -/
theorem cmpNonDigitRuns_firstDiff (p u w : List Char) (c d : Char)
    (hp : ∀ e ∈ p, (CHAR_VALUES e).isSome)
    (hcv : CHAR_VALUES c = some c.toNat) (hgt : 4 < c.toNat)
    (hd : d = '-' ∨ d = '+' ∨ d = '.') :
    cmpNonDigitRuns (p ++ c :: u) (p ++ d :: w) = .ok 1 := by
  have hdval : ∃ vd, CHAR_VALUES d = some vd ∧ vd < c.toNat := by
    rcases hd with rfl | rfl | rfl
    · exact ⟨2, rfl, by omega⟩
    · exact ⟨3, rfl, by omega⟩
    · exact ⟨4, rfl, by omega⟩
  obtain ⟨vd, hvd, hlt⟩ := hdval
  have hstep : ∀ (u' w' : List Char),
      cmpChars (p ++ c :: u') (p ++ d :: w') = .ok 1 := by
    intro u' w'
    rw [cmpChars_append p _ _ hp]
    simp only [cmpChars, hcv, hvd]
    rw [if_pos hlt]
  simp only [cmpNonDigitRuns, padRuns]
  by_cases h1 : (p ++ c :: u).length ≠ (p ++ d :: w).length
  · rw [if_pos h1]
    by_cases h2 : (p ++ c :: u).length > (p ++ d :: w).length
    · rw [if_pos h2]
      show cmpChars (p ++ c :: u)
        ((p ++ d :: w) ++ List.replicate _ ' ') = .ok 1
      rw [List.append_assoc, List.cons_append]
      exact hstep u _
    · rw [if_neg h2]
      show cmpChars ((p ++ c :: u) ++ List.replicate _ ' ')
        (p ++ d :: w) = .ok 1
      rw [List.append_assoc, List.cons_append]
      exact hstep _ w
  · rw [if_neg h1]
    exact hstep u w

/-- C2 (amended): the `CHAR_VALUES` total order on characters is
`~ < (pad) < '-' < '+' < '.' < letters (in ASCII order)` — the letters
sort *above* the punctuation, not below it; consequently, when two
non-digit runs are compared after padding and their first differing
characters are a letter on one side and one of `-`, `+`, `.` on the
other, the side with the letter compares **higher**. -/
theorem C2_char_order_amended (c d : Char) (p u w : List Char)
    (hp : ∀ e ∈ p, (CHAR_VALUES e).isSome)
    (hc : ('A' ≤ c ∧ c ≤ 'Z') ∨ ('a' ≤ c ∧ c ≤ 'z'))
    (hd : d = '-' ∨ d = '+' ∨ d = '.') :
    (CHAR_VALUES '~' = some 0 ∧ CHAR_VALUES ' ' = some 1 ∧
     CHAR_VALUES '-' = some 2 ∧ CHAR_VALUES '+' = some 3 ∧
     CHAR_VALUES '.' = some 4 ∧
     CHAR_VALUES c = some c.toNat ∧ 4 < c.toNat) ∧
    cmpNonDigitRuns (p ++ c :: u) (p ++ d :: w) = .ok 1 := by
  obtain ⟨hcv, hbound⟩ := CHAR_VALUES_letter c hc
  refine ⟨⟨rfl, rfl, rfl, rfl, rfl, hcv, by omega⟩, ?_⟩
  exact cmpNonDigitRuns_firstDiff p u w c d hp hcv (by omega) hd

/-- C2 witness: runs `xa` versus `x.z` differing at `a` vs `.`: the
letter side wins. -/
theorem C2_char_order_witness :
    ((∀ e ∈ ['x'], (CHAR_VALUES e).isSome) ∧
     (('A' ≤ 'a' ∧ 'a' ≤ 'Z') ∨ ('a' ≤ 'a' ∧ 'a' ≤ 'z')) ∧
     ('.' = '-' ∨ '.' = '+' ∨ '.' = '.')) ∧
    ((CHAR_VALUES '~' = some 0 ∧ CHAR_VALUES ' ' = some 1 ∧
      CHAR_VALUES '-' = some 2 ∧ CHAR_VALUES '+' = some 3 ∧
      CHAR_VALUES '.' = some 4 ∧
      CHAR_VALUES 'a' = some 'a'.toNat ∧ 4 < 'a'.toNat) ∧
     cmpNonDigitRuns (['x'] ++ 'a' :: []) (['x'] ++ '.' :: ['z'])
       = .ok 1) :=
  ⟨⟨by decide, by decide, by decide⟩,
   C2_char_order_amended 'a' '.' ['x'] [] ['z']
     (by decide) (by decide) (by decide)⟩

/-- C2 counterexample: the first differing characters of `"a"` and `"."`
are the letter `a` against `.`; the claim says the letter side compares
lower (`-1`), but the code returns `+1`. -/
theorem C2_char_order_counterexample :
    compare_versions "a" "." = .ok 1 := by decide

/-- C9: the version ordering is **not** transitive.  `compare` leaves the
digit/nondigit `mode` variable untouched between the upstream-version
pair and the revision pair, and in digit mode a revision starting with a
non-digit loses its first character as the number 0; hence
`"a-p" < "a0-q"` and `"a0-q" < "a-z"` but `compare("a-p", "a-z") = 0`. -/
theorem C9_intransitive_eval :
    compare_versions "a-p" "a0-q" = .ok (-1) ∧
    compare_versions "a0-q" "a-z" = .ok (-1) ∧
    compare_versions "a-p" "a-z" = .ok 0 :=
  ⟨by decide, by decide, by decide⟩

/-- C6 (amended): on input that the code's version regex rejects,
`DebianPackageVersion.__init__` fails with a `ValueError` (there is no
`InvalidVersion` class), while `compare_versions` does **not** fail: it
degrades the argument to empty epoch, upstream and revision and returns
a comparison result. -/
theorem C6_invalid_version_amended :
    (∀ s : String, xpkgMatch s.data = none →
      debianPackageVersionInit s = .error .valueError ∧
      compareParts s.data = ([], [], [])) ∧
    compare_versions "_" "_" = .ok 0 := by
  refine ⟨?_, by decide⟩
  intro s h
  constructor
  · simp [debianPackageVersionInit, h]
  · simp [compareParts, h]

/-- C6 witness: `"_"` matches neither regex; parsing it errors and
comparison degrades it to empty parts. -/
theorem C6_invalid_version_witness :
    xpkgMatch "_".data = none ∧
    (debianPackageVersionInit "_" = .error .valueError ∧
     compareParts "_".data = ([], [], [])) :=
  ⟨by decide, C6_invalid_version_amended.1 "_" (by decide)⟩

/-- C6 counterexample: `"_"` does not match the spec's regex, yet
`compare_versions` returns a result (`0`) instead of failing; and
`"1-a_b"` does not match the spec's regex (revision class
`[.~+A-Za-z0-9]`), yet parsing succeeds because the code's revision
class is `[^-]`. -/
theorem C6_invalid_version_counterexample :
    specVersionMatch "_".data = none ∧
    compare_versions "_" "_" = .ok 0 ∧
    specVersionMatch "1-a_b".data = none ∧
    debianPackageVersionInit "1-a_b"
      = .ok ⟨"1-a_b", "", "1", "a_b"⟩ :=
  ⟨by decide, by decide, by decide, by decide⟩

/-- `filter_etc_var` keeps an entry exactly when its path does not begin
with the four characters `/etc` or `/var`. -/
theorem filterEtcVar_eq_true {α : Type} (e : String × α) :
    filterEtcVar e = true ↔
      ¬(e.1.data.take 4 = "/etc".data ∨ e.1.data.take 4 = "/var".data) := by
  unfold filterEtcVar
  split <;> simp_all

/-- Membership in the `tools` file list: the sort and the `set()`
de-duplication preserve membership, so an entry is in the result exactly
when it survives `filter_etc_var` on the de-duplicated contents. -/
theorem mem_generateFileListTools {α : Type} [DecidableEq α]
    (contents : List (String × α)) (e : String × α) :
    e ∈ generateFileListTools contents ↔
      e ∈ contents.dedup ∧ filterEtcVar e = true := by
  unfold generateFileListTools
  rw [List.mem_mergeSort, List.mem_filter]

/-- C7 (amended): for `tools` architecture, `generate_file_list` strips
exactly the entries whose path *begins with the four characters* `/etc`
or `/var` — in particular every entry with target path `/etc`, `/var` or
below them is stripped — and retains every other entry; an entry such as
`/etcetera`, although not under `/etc`, is stripped as well because only
the first four characters are tested. -/
theorem C7_tools_filter_amended {α : Type} [DecidableEq α]
    (contents : List (String × α)) (e : String × α) :
    (e ∈ generateFileListTools contents ↔
      e ∈ contents.dedup ∧
      ¬(e.1.data.take 4 = "/etc".data ∨ e.1.data.take 4 = "/var".data)) ∧
    (∀ r : String, e.1 = "/etc" ++ r ∨ e.1 = "/var" ++ r →
      e ∉ generateFileListTools contents) := by
  constructor
  · rw [mem_generateFileListTools, filterEtcVar_eq_true]
  · intro r hr hmem
    rw [mem_generateFileListTools] at hmem
    obtain ⟨-, hf⟩ := hmem
    rw [filterEtcVar_eq_true] at hf
    apply hf
    rcases hr with hr | hr
    · left
      rw [hr, String.data_append]
      exact List.take_left' rfl
    · right
      rw [hr, String.data_append]
      exact List.take_left' rfl

/-- C7 witness: `/etc/passwd` lies under `/etc` and is indeed stripped
from the `tools` file list. -/
theorem C7_tools_filter_witness :
    ("/etc/passwd" = "/etc" ++ "/passwd" ∨
      "/etc/passwd" = "/var" ++ "/passwd") ∧
    ("/etc/passwd", (0 : ℕ)) ∉
      generateFileListTools [("/etc/passwd", 0), ("/usr/bin/sh", (0 : ℕ))] :=
  ⟨Or.inl (by decide),
   (C7_tools_filter_amended
       [("/etc/passwd", 0), ("/usr/bin/sh", (0 : ℕ))]
       ("/etc/passwd", 0)).2
     "/passwd" (Or.inl (by decide))⟩

/-- C7 counterexample: the entry `/etcetera` is not under `/etc` (it is
neither `/etc` itself nor below `/etc/`) nor under `/var`, yet the
filtering step drops it, so it is not retained unchanged. -/
theorem C7_tools_filter_counterexample :
    generateFileListTools [("/etcetera", (0 : ℕ))] = [] ∧
    "/etcetera" ≠ "/etc" ∧
    ¬ List.IsPrefix "/etc/".data "/etcetera".data ∧
    ¬ List.IsPrefix "/var/".data "/etcetera".data := by
  refine ⟨?_, by decide, by decide, by decide⟩
  have h : ([("/etcetera", (0 : ℕ))].dedup).filter filterEtcVar = [] := by
    decide
  unfold generateFileListTools
  rw [h]
  exact (List.mergeSort_perm [] _).eq_nil

/-- A maximal munch stops exactly at the first failing character. -/
theorem takeWhile_all_append (P : Char → Bool) (cs rest : List Char)
    (hcs : ∀ x ∈ cs, P x = true)
    (hrest : ∀ d ds, rest = d :: ds → P d = false) :
    (cs ++ rest).takeWhile P = cs := by
  induction cs with
  | nil =>
    cases rest with
    | nil => rfl
    | cons d ds => simp [List.takeWhile_cons, hrest d ds rfl]
  | cons c cs ih =>
    have hc : P c = true := hcs c (List.mem_cons_self c cs)
    simp [List.takeWhile_cons, hc,
      ih (fun x hx => hcs x (List.mem_cons_of_mem _ hx))]

/-- A `word` start character is none of the other token starters. -/
theorem wordStart_props (c : Char) (h : isWordStart c = true) :
    ¬(c = '(') ∧ ¬(c = ')') ∧ ¬(c = '!') ∧ isPySpace c = false := by
  refine ⟨?_, ?_, ?_, ?_⟩
  · rintro rfl; exact absurd h (by decide)
  · rintro rfl; exact absurd h (by decide)
  · rintro rfl; exact absurd h (by decide)
  · cases hsp : isPySpace c with
    | false => rfl
    | true =>
      exfalso
      simp only [isPySpace, Bool.or_eq_true, decide_eq_true_eq] at hsp
      rcases hsp with ((((rfl | rfl) | rfl) | rfl) | rfl) | rfl <;>
        exact absurd h (by decide)

/-- The tokenizer's result does not depend on the fuel, as long as the
fuel exceeds the number of characters (each step consumes at least one
character). -/
theorem tokenizeFrom_fuelAux (n : Nat) :
    ∀ (cs : List Char), cs.length ≤ n → ∀ (f g p : Nat),
      cs.length < f → cs.length < g →
      tokenizeFrom f p cs = tokenizeFrom g p cs := by
  induction n with
  | zero =>
    intro cs hn f g p hf hg
    obtain rfl : cs = [] := List.length_eq_zero.mp (by omega)
    obtain ⟨f', rfl⟩ : ∃ f', f = f' + 1 := ⟨f - 1, by omega⟩
    obtain ⟨g', rfl⟩ : ∃ g', g = g' + 1 := ⟨g - 1, by omega⟩
    rfl
  | succ n ih =>
    intro cs hn f g p hf hg
    obtain ⟨f', rfl⟩ : ∃ f', f = f' + 1 := ⟨f - 1, by omega⟩
    obtain ⟨g', rfl⟩ : ∃ g', g = g' + 1 := ⟨g - 1, by omega⟩
    cases cs with
    | nil => rfl
    | cons c cs' =>
      have hlen : cs'.length ≤ n := by
        simp only [List.length_cons] at hn
        omega
      have hf' : cs'.length < f' := by
        simp only [List.length_cons] at hf
        omega
      have hg' : cs'.length < g' := by
        simp only [List.length_cons] at hg
        omega
      simp only [tokenizeFrom]
      by_cases h1 : c = '('
      · simp only [if_pos h1]
        rw [ih cs' hlen f' g' (p + 1) hf' hg']
      simp only [if_neg h1]
      by_cases h2 : c = ')'
      · simp only [if_pos h2]
        rw [ih cs' hlen f' g' (p + 1) hf' hg']
      simp only [if_neg h2]
      by_cases h3 : isWordStart c = true
      · simp only [if_pos h3]
        have hdl : (cs'.drop
            ((c :: cs'.takeWhile isWordChar).length - 1)).length
            ≤ cs'.length := by
          rw [List.length_drop]
          omega
        rw [ih (cs'.drop ((c :: cs'.takeWhile isWordChar).length - 1))
          (by omega) f' g'
          (p + (c :: cs'.takeWhile isWordChar).length)
          (by omega) (by omega)]
      simp only [if_neg h3]
      by_cases h4 : c = '!'
      · simp only [if_pos h4]
        rw [ih cs' hlen f' g' (p + 1) hf' hg']
      simp only [if_neg h4]
      by_cases h5 : isPySpace c = true
      · simp only [if_pos h5]
        have hdl : (cs'.drop
            ((c :: cs'.takeWhile isPySpace).length - 1)).length
            ≤ cs'.length := by
          rw [List.length_drop]
          omega
        rw [ih (cs'.drop ((c :: cs'.takeWhile isPySpace).length - 1))
          (by omega) f' g'
          (p + (c :: cs'.takeWhile isPySpace).length)
          (by omega) (by omega)]
      simp only [if_neg h5]

/-- Fuel irrelevance for the tokenizer. -/
theorem tokenizeFrom_fuel (cs : List Char) (f g p : Nat)
    (hf : cs.length < f) (hg : cs.length < g) :
    tokenizeFrom f p cs = tokenizeFrom g p cs :=
  tokenizeFrom_fuelAux cs.length cs (le_refl _) f g p hf hg

/-- One tokenizer step on `!`. -/
theorem tokenizeFrom_bang (f p : Nat) (rest : List Char) :
    tokenizeFrom (f + 1) p ('!' :: rest)
      = (tokenizeFrom f (p + 1) rest).map (⟨.bang, "!", p⟩ :: ·) := rfl

/-- One tokenizer step on `(`. -/
theorem tokenizeFrom_lparen (f p : Nat) (rest : List Char) :
    tokenizeFrom (f + 1) p ('(' :: rest)
      = (tokenizeFrom f (p + 1) rest).map (⟨.lparen, "(", p⟩ :: ·) := rfl

/-- One tokenizer step on `)`. -/
theorem tokenizeFrom_rparen (f p : Nat) (rest : List Char) :
    tokenizeFrom (f + 1) p (')' :: rest)
      = (tokenizeFrom f (p + 1) rest).map (⟨.rparen, ")", p⟩ :: ·) := rfl

/-- One tokenizer step on a single space followed by a non-space. -/
theorem tokenizeFrom_space (f p : Nat) (rest : List Char)
    (h : ∀ d ds, rest = d :: ds → isPySpace d = false) :
    tokenizeFrom (f + 1) p (' ' :: rest) = tokenizeFrom f (p + 1) rest := by
  have htw : rest.takeWhile isPySpace = [] := by
    cases rest with
    | nil => rfl
    | cons d ds => simp [List.takeWhile_cons, h d ds rfl]
  show tokenizeFrom f (p + (' ' :: rest.takeWhile isPySpace).length)
      (rest.drop ((' ' :: rest.takeWhile isPySpace).length - 1))
    = tokenizeFrom f (p + 1) rest
  rw [htw]
  rfl

/-- One tokenizer step on a word token followed by a non-word
character (or the end of input): maximal munch emits the whole word,
reclassifying `and` and `or`. -/
theorem tokenizeFrom_word (f p : Nat) (w : String) (rest : List Char)
    (hw : isWordTokenStr w = true)
    (hrest : ∀ d ds, rest = d :: ds → isWordChar d = false) :
    tokenizeFrom (f + 1) p (w.data ++ rest) =
      (tokenizeFrom f (p + w.data.length) rest).map
        ((⟨if w = "and" then .andOp else if w = "or" then .orOp
            else .word, w, p⟩ : Tok) :: ·) := by
  obtain ⟨c, cs, hdata, hstart, hchars⟩ :
      ∃ c cs, w.data = c :: cs ∧ isWordStart c = true ∧
        cs.all isWordChar = true := by
    cases hx : w.data with
    | nil => simp [isWordTokenStr, hx] at hw
    | cons c cs =>
      simp only [isWordTokenStr, hx, Bool.and_eq_true] at hw
      exact ⟨c, cs, rfl, hw.1, hw.2⟩
  obtain ⟨hne1, hne2, hne3, hsp⟩ := wordStart_props c hstart
  have hmk : String.mk (c :: cs) = w := by rw [← hdata]
  have htw : (cs ++ rest).takeWhile isWordChar = cs :=
    takeWhile_all_append _ cs rest
      (fun x hx => by
        have := List.all_eq_true.mp hchars x hx
        simpa using this)
      hrest
  rw [hdata, List.cons_append]
  simp only [tokenizeFrom]
  rw [if_neg hne1, if_neg hne2, if_pos hstart, htw, hmk]
  rw [List.length_cons, Nat.add_sub_cancel, List.drop_left]

/-- Tokenizing a lone word token. -/
theorem tokenizeFrom_word_nil (f p : Nat) (w : String)
    (hw : isWordTokenStr w = true) (hf : 0 < f) :
    tokenizeFrom (f + 1) p w.data
      = .ok [⟨if w = "and" then .andOp else if w = "or" then .orOp
          else .word, w, p⟩] := by
  obtain ⟨f', rfl⟩ : ∃ f', f = f' + 1 := ⟨f - 1, by omega⟩
  have h0 := tokenizeFrom_word (f' + 1) p w [] hw
    (fun d ds h => absurd h (by simp))
  rw [List.append_nil] at h0
  rw [h0]
  rfl

/-- A word token is nonempty. -/
theorem isWordTokenStr_length (w : String) (hw : isWordTokenStr w = true) :
    0 < w.data.length := by
  cases hx : w.data with
  | nil => simp [isWordTokenStr, hx] at hw
  | cons c cs => simp [hx]

/-- Evaluation of `parse` on a single word token: the value is the
`symbols` lookup. -/
theorem filterParse_word_eval (tt : List String) (x : String)
    (hw : isWordTokenStr x = true) (hand : x ≠ "and") (hor : x ≠ "or") :
    filterParse tt x = .ok (symbolsGet tt x) := by
  have hlen := isWordTokenStr_length x hw
  unfold filterParse
  obtain ⟨n, hn⟩ : ∃ n, x.data.length = n + 1 := ⟨x.data.length - 1, by omega⟩
  rw [hn, tokenizeFrom_word_nil (n + 1) 1 x hw (by omega),
    if_neg hand, if_neg hor]
  rfl

/-- Evaluation of `parse` on the empty expression: `_p_expr` returns
`None`, which `parse` maps to `True`. -/
theorem filterParse_empty_eval (tt : List String) :
    filterParse tt "" = .ok true := rfl

/-- C5 (amended): a single word token `w` (other than the operator words
`and`/`or`) parses to true exactly when `w` is in
`true_terms ∪ {"true"}` — a term listed in `true_terms` is true even if
it is the word `"false"`, because the `true_terms` insertions overwrite
the initial `{"false": False}` binding; and an empty expression parses
to true. -/
theorem C5_word_truth_amended (tt : List String) (w : String)
    (hw : isWordTokenStr w = true) (hand : w ≠ "and") (hor : w ≠ "or") :
    filterParse tt w = .ok (decide (w ∈ tt ∨ w = "true")) ∧
    filterParse tt "" = .ok true := by
  refine ⟨?_, rfl⟩
  rw [filterParse_word_eval tt w hw hand hor]
  congr 1
  unfold symbolsGet
  by_cases h1 : w ∈ tt
  · simp [h1]
  · by_cases h2 : w = "true"
    · simp [h1, h2]
    · by_cases h3 : w = "false" <;> simp [h1, h2, h3]

/-- C5 witness: the word `aarch64` with `true_terms = ["aarch64"]`. -/
theorem C5_word_truth_witness :
    isWordTokenStr "aarch64" = true ∧ "aarch64" ≠ "and" ∧
    "aarch64" ≠ "or" ∧
    (filterParse ["aarch64"] "aarch64"
        = .ok (decide ("aarch64" ∈ ["aarch64"] ∨ "aarch64" = "true")) ∧
      filterParse ["aarch64"] "" = .ok true) :=
  ⟨by decide, by decide, by decide,
   C5_word_truth_amended ["aarch64"] "aarch64"
     (by decide) (by decide) (by decide)⟩

/-- C5 counterexample: with `true_terms = ["false"]` the word `false`
parses to true, although the claim — requiring the word to differ from
`"false"` — predicts false. -/
theorem C5_word_truth_counterexample :
    filterParse ["false"] "false" = .ok true ∧
    ¬((("false" ∈ ["false"]) ∨ "false" = "true") ∧ "false" ≠ "false") :=
  ⟨by decide, by decide⟩

/-- Evaluation of `parse` on `!x` for a word token `x`. -/
theorem filterParse_bang_eval (tt : List String) (x : String)
    (hw : isWordTokenStr x = true) (hand : x ≠ "and") (hor : x ≠ "or") :
    filterParse tt ("!" ++ x) = .ok (!(symbolsGet tt x)) := by
  have hlen := isWordTokenStr_length x hw
  obtain ⟨n, hn⟩ : ∃ n, x.data.length = n + 1 := ⟨x.data.length - 1, by omega⟩
  unfold filterParse
  rw [show ("!" ++ x).data = '!' :: x.data from rfl, List.length_cons, hn,
    tokenizeFrom_bang, tokenizeFrom_word_nil (n + 1) 2 x hw (by omega),
    if_neg hand, if_neg hor]
  rfl

/-- Evaluation of `parse` on `(x)` for a word token `x`. -/
theorem filterParse_paren_eval (tt : List String) (x : String)
    (hw : isWordTokenStr x = true) (hand : x ≠ "and") (hor : x ≠ "or") :
    filterParse tt ("(" ++ x ++ ")") = .ok (symbolsGet tt x) := by
  have hlen := isWordTokenStr_length x hw
  unfold filterParse
  rw [show ("(" ++ x ++ ")").data = '(' :: (x.data ++ [')']) from rfl,
    List.length_cons, List.length_append,
    show ([')'] : List Char).length = 1 from rfl,
    tokenizeFrom_lparen,
    tokenizeFrom_word (x.data.length + 1) (1 + 1) x [')'] hw
      (fun d ds h => by cases h; rfl),
    tokenizeFrom_fuel [')'] (x.data.length + 1) 2 _
      (by simp only [List.length_cons, List.length_nil]; omega)
      (by simp only [List.length_cons, List.length_nil]; omega),
    if_neg hand, if_neg hor]
  rfl

/-- Evaluation of `parse` on `x and y` for word tokens `x`, `y`. -/
theorem filterParse_and_eval (tt : List String) (x y : String)
    (hwx : isWordTokenStr x = true) (handx : x ≠ "and") (horx : x ≠ "or")
    (hwy : isWordTokenStr y = true) (handy : y ≠ "and") (hory : y ≠ "or") :
    filterParse tt (x ++ " and " ++ y)
      = .ok (symbolsGet tt x && symbolsGet tt y) := by
  have hlx := isWordTokenStr_length x hwx
  have hly := isWordTokenStr_length y hwy
  have hys : ∀ d ds, y.data = d :: ds → isPySpace d = false := by
    intro d ds h
    have hds : isWordStart d = true := by
      simp only [isWordTokenStr, h, Bool.and_eq_true] at hwy
      exact hwy.1
    exact (wordStart_props d hds).2.2.2
  have hlx2 : 0 < x.length := hlx
  unfold filterParse
  rw [show (x ++ " and " ++ y).data
      = x.data ++ (' ' :: 'a' :: 'n' :: 'd' :: ' ' :: y.data) from by
    rw [String.data_append, String.data_append, List.append_assoc]
    rfl]
  rw [tokenizeFrom_word
      ((x.data ++ (' ' :: 'a' :: 'n' :: 'd' :: ' ' :: y.data)).length)
      1 x (' ' :: 'a' :: 'n' :: 'd' :: ' ' :: y.data) hwx
      (fun d ds h => by cases h; rfl)]
  rw [tokenizeFrom_fuel (' ' :: 'a' :: 'n' :: 'd' :: ' ' :: y.data)
      ((x.data ++ (' ' :: 'a' :: 'n' :: 'd' :: ' ' :: y.data)).length)
      ((' ' :: 'a' :: 'n' :: 'd' :: ' ' :: y.data).length + 1) _
      (by simp [List.length_append]; omega) (by omega)]
  rw [tokenizeFrom_space _ _ _ (fun d ds h => by cases h; rfl)]
  rw [List.length_cons,
    show ('a' :: 'n' :: 'd' :: ' ' :: y.data)
      = "and".data ++ (' ' :: y.data) from rfl]
  rw [tokenizeFrom_word _ _ "and" (' ' :: y.data) (by decide)
      (fun d ds h => by cases h; rfl)]
  rw [tokenizeFrom_fuel (' ' :: y.data)
      (("and".data ++ (' ' :: y.data)).length)
      ((' ' :: y.data).length + 1) _
      (by simp [List.length_append]) (by omega)]
  rw [tokenizeFrom_space _ _ _ hys]
  rw [List.length_cons,
    tokenizeFrom_word_nil y.data.length _ y hwy (by omega)]
  rw [if_neg handx, if_neg horx, if_neg handy, if_neg hory,
    if_pos (rfl : "and" = "and")]
  rfl

/-- C4: for every `true_terms` set and all word tokens `x`, `y` of the
filter grammar (single word tokens, hence not the operator words
`and`/`or`), the parser satisfies `parse("!x") = not parse("x")`,
`parse("x and y") = parse("x") AND parse("y")` and
`parse("(x)") = parse("x")`. -/
theorem C4_parser_soundness (tt : List String) (x y : String)
    (hwx : isWordTokenStr x = true) (handx : x ≠ "and") (horx : x ≠ "or")
    (hwy : isWordTokenStr y = true) (handy : y ≠ "and") (hory : y ≠ "or") :
    filterParse tt ("!" ++ x) = (filterParse tt x).map (fun b => !b) ∧
    filterParse tt (x ++ " and " ++ y)
      = (do
          let a ← filterParse tt x
          let b ← filterParse tt y
          pure (a && b)) ∧
    filterParse tt ("(" ++ x ++ ")") = filterParse tt x := by
  rw [filterParse_word_eval tt x hwx handx horx,
    filterParse_word_eval tt y hwy handy hory,
    filterParse_bang_eval tt x hwx handx horx,
    filterParse_and_eval tt x y hwx handx horx hwy handy hory,
    filterParse_paren_eval tt x hwx handx horx]
  exact ⟨rfl, rfl, rfl⟩

/-- C4 witness: `x = "aarch64"`, `y = "musl"`,
`true_terms = ["aarch64"]`. -/
theorem C4_parser_soundness_witness :
    isWordTokenStr "aarch64" = true ∧ "aarch64" ≠ "and" ∧
    "aarch64" ≠ "or" ∧ isWordTokenStr "musl" = true ∧
    "musl" ≠ "and" ∧ "musl" ≠ "or" ∧
    (filterParse ["aarch64"] ("!" ++ "aarch64")
        = (filterParse ["aarch64"] "aarch64").map (fun b => !b) ∧
      filterParse ["aarch64"] ("aarch64" ++ " and " ++ "musl")
        = (do
            let a ← filterParse ["aarch64"] "aarch64"
            let b ← filterParse ["aarch64"] "musl"
            pure (a && b)) ∧
      filterParse ["aarch64"] ("(" ++ "aarch64" ++ ")")
        = filterParse ["aarch64"] "aarch64") :=
  ⟨by decide, by decide, by decide, by decide, by decide, by decide,
   C4_parser_soundness ["aarch64"] "aarch64" "musl"
     (by decide) (by decide) (by decide)
     (by decide) (by decide) (by decide)⟩

end DistroTools
